import Mathlib

/-!
Verification development for the deepdreamer repository (deepdreamer.py).

The Python source is shallowly embedded: images and network blobs become
rational-valued tensors with explicit (channel, height, width) dimensions,
the caffe network is an abstract gradient oracle (a forward function giving
the target layer's activation and a backward function giving the gradient
with respect to the input), and the NumPy / SciPy array operations used by
the source (roll, clip, zoom, mean of absolute values) are modelled as
executable Lean functions.
-/

namespace DeepDreamer

/-- A dense numeric array in channel x height x width layout, as held by a
caffe blob (`net.blobs["data"].data[0]` and friends).  Entries outside the
declared bounds are irrelevant junk. -/
structure Tensor where
  c : ℕ
  h : ℕ
  w : ℕ
  data : ℕ → ℕ → ℕ → ℚ

/-- A display-space image in height x width x channel layout (3 channels),
as produced by `np.float32(img_open(...))`. -/
structure Image where
  h : ℕ
  w : ℕ
  data : ℕ → ℕ → ℕ → ℚ

/-- Default tensor used with `List.getD`; never reached on the paths the
theorems speak about. -/
def dummyT : Tensor := ⟨0, 0, 0, fun _ _ _ => 0⟩

/-- Default image used with `List.getD`. -/
def dummyImg : Image := ⟨0, 0, fun _ _ _ => 0⟩

/-- Extensional equality of tensors on their valid index ranges. -/
def Tensor.EqOn (a b : Tensor) : Prop :=
  a.c = b.c ∧ a.h = b.h ∧ a.w = b.w ∧
    ∀ c < b.c, ∀ y < b.h, ∀ x < b.w, a.data c y x = b.data c y x

instance (a b : Tensor) : Decidable (a.EqOn b) := by
  unfold Tensor.EqOn; infer_instance

/-- Extensional equality of images on their valid index ranges
(3 channels). -/
def Image.EqOn (a b : Image) : Prop :=
  a.h = b.h ∧ a.w = b.w ∧
    ∀ y < b.h, ∀ x < b.w, ∀ ch < 3, a.data y x ch = b.data y x ch

instance (a b : Image) : Decidable (a.EqOn b) := by
  unfold Image.EqOn; infer_instance

/-- Wrap an integer index into `[0, n)` the way Python's `%` (and hence
`np.roll`'s index arithmetic) does. -/
def wrapIdx (z : ℤ) (n : ℕ) : ℕ := (z % (n : ℤ)).toNat

/-- `np.roll(t, o, -1)`: circular shift of the last (width) axis by `o`;
output position `x` reads input position `(x - o) mod w`. -/
def rollX (t : Tensor) (o : ℤ) : Tensor :=
  ⟨t.c, t.h, t.w, fun c y x => t.data c y (wrapIdx ((x : ℤ) - o) t.w)⟩

/-- `np.roll(t, o, -2)`: circular shift of the height axis by `o`. -/
def rollY (t : Tensor) (o : ℤ) : Tensor :=
  ⟨t.c, t.h, t.w, fun c y x => t.data c (wrapIdx ((y : ℤ) - o) t.h) x⟩

/-- `np.abs(g).mean()`: mean of absolute values over all declared entries. -/
def meanAbs (t : Tensor) : ℚ :=
  (∑ c ∈ Finset.range t.c, ∑ y ∈ Finset.range t.h, ∑ x ∈ Finset.range t.w,
      |t.data c y x|) / (t.c * t.h * t.w)

/-- One basic gradient ascent step, embedding `_make_step`.
`F` is the oracle's forward pass (input binding data to the target layer's
activation), `B` its backward pass (input binding data and the seed placed
in the layer's diff to the gradient with respect to the input).  The line
`dst.diff[:] = dst.data` of the source appears here as `B shifted (F shifted)`:
the seed handed to the backward pass is the forward activation itself. -/
def make_step (F : Tensor → Tensor) (B : Tensor → Tensor → Tensor)
    (step_size : ℚ) (clip : Bool) (bias : ℕ → ℚ) (off : ℤ × ℤ)
    (src : Tensor) : Tensor :=
  let shifted := rollY (rollX src off.1) off.2
  let g := B shifted (F shifted)
  let stepped : Tensor :=
    ⟨shifted.c, shifted.h, shifted.w,
      fun c y x => shifted.data c y x + step_size / meanAbs g * g.data c y x⟩
  let unshifted := rollY (rollX stepped (-off.1)) (-off.2)
  if clip then
    ⟨unshifted.c, unshifted.h, unshifted.w,
      fun c y x => min (255 - bias c) (max (-(bias c)) (unshifted.data c y x))⟩
  else unshifted

/-- `_preprocess`: roll the channel axis to the front, reverse the channel
order, subtract the per-channel mean (caffe broadcasts a 1-D mean as
`(3,1,1)`). -/
def preprocess (mean : ℕ → ℚ) (img : Image) : Tensor :=
  ⟨3, img.h, img.w, fun c y x => img.data y x (2 - c) - mean c⟩

/-- `_deprocess`: add the mean back, reverse the channel order, restore the
channel-last layout with `np.dstack`. -/
def deprocess (mean : ℕ → ℚ) (t : Tensor) : Image :=
  ⟨t.h, t.w, fun y x ch => t.data (2 - ch) y x + mean (2 - ch)⟩

/-- Round to the nearest integer, ties to even: the semantics of Python 3's
`round`, which `scipy.ndimage.zoom` applies to compute output shapes. -/
def roundHalfEven (q : ℚ) : ℤ :=
  if q - ⌊q⌋ < 1 / 2 then ⌊q⌋
  else if 1 / 2 < q - ⌊q⌋ then ⌊q⌋ + 1
  else if ⌊q⌋ % 2 = 0 then ⌊q⌋ else ⌊q⌋ + 1

/-- Output length of one axis of `scipy.ndimage.zoom`:
`int(round(size * factor))`. -/
def zoomShape (n : ℕ) (f : ℚ) : ℕ := (roundHalfEven ((n : ℚ) * f)).toNat

/-- Linear (order-1) interpolation of a 1-D sample row at a rational
position, indices clamped to `[0, n-1]`. -/
def interp1 (get : ℕ → ℚ) (n : ℕ) (pos : ℚ) : ℚ :=
  let i : ℤ := ⌊pos⌋
  let t : ℚ := pos - i
  (1 - t) * get (min i.toNat (n - 1)) + t * get (min (i.toNat + 1) (n - 1))

/-- Models the external `scipy.ndimage.zoom(t, (1, fy, fx), order=1)`:
the channel axis is untouched, each spatial axis gets length
`int(round(size * factor))`, and sample values come from order-1
interpolation at the back-mapped source coordinate. -/
def zoomTensor (t : Tensor) (fy fx : ℚ) : Tensor :=
  ⟨t.c, zoomShape t.h fy, zoomShape t.w fx,
    fun c y x =>
      interp1 (fun yy => interp1 (fun xx => t.data c yy xx) t.w ((x : ℚ) / fx))
        t.h ((y : ℚ) / fy)⟩

/-- The octave pyramid of `_deepdream`, finest first: `k` further levels are
appended, each the order-1 zoom of the previous one by the factor `f` along
both spatial axes. -/
def buildOctaves (t : Tensor) (f : ℚ) : ℕ → List Tensor
  | 0 => [t]
  | k + 1 => t :: buildOctaves (zoomTensor t f f) f k

/-- The numeric knobs of `_deepdream` and `_make_step`, together with the
network's per-channel mean (`net.transformer.mean["data"]`). -/
structure DreamCfg where
  iter_n : ℕ
  octave_n : ℕ
  octave_scale : ℚ
  step_size : ℚ
  clip : Bool
  mean : ℕ → ℚ

/-- The pyramid built at the top of `_deepdream`: the preprocessed base
image followed by `octave_n - 1` successive downsamplings by
`1 / octave_scale`. -/
def octaves (cfg : DreamCfg) (img : Image) : List Tensor :=
  buildOctaves (preprocess cfg.mean img) (1 / cfg.octave_scale) (cfg.octave_n - 1)

/-- `octaves[::-1]`: the pyramid in processing order, coarsest first. -/
def octavesRev (cfg : DreamCfg) (img : Image) : List Tensor :=
  (octaves cfg img).reverse

/-- `np.zeros_like(t)`. -/
def zerosLike (t : Tensor) : Tensor := ⟨t.c, t.h, t.w, fun _ _ _ => 0⟩

/-- Pointwise difference `a - b` (shapes taken from `a`), as in
`detail = src.data[0] - octave_base`. -/
def subT (a b : Tensor) : Tensor :=
  ⟨a.c, a.h, a.w, fun c y x => a.data c y x - b.data c y x⟩

/-- The detail buffer as it stands immediately before being added to the
current octave's base: untouched on the first (coarsest) octave, otherwise
`zoom(detail, (1, h/h1, w/w1), order=1)` for the current base's spatial
size `(h, w)` and the buffer's own size `(h1, w1)`. -/
def resizeForOctave (k : ℕ) (octave_base detail : Tensor) : Tensor :=
  if k = 0 then detail
  else zoomTensor detail ((octave_base.h : ℚ) / (detail.h : ℚ))
    ((octave_base.w : ℚ) / (detail.w : ℚ))

/-- The inner `for i in range(iter_n)` loop of `_deepdream`: `n` gradient
ascent steps against the input binding, the `i`-th one using the random
offsets `rand (base0 + i)`. -/
def ascentLoop (F : Tensor → Tensor) (B : Tensor → Tensor → Tensor)
    (cfg : DreamCfg) (rand : ℕ → ℤ × ℤ) (base0 : ℕ) : ℕ → Tensor → Tensor
  | 0, src => src
  | n + 1, src =>
      make_step F B cfg.step_size cfg.clip cfg.mean (rand (base0 + n))
        (ascentLoop F B cfg rand base0 n src)

/-- One iteration of the octave loop of `_deepdream` at octave index `k`
(coarsest first): resample the detail buffer, overwrite the input binding
with `octave_base + detail`, run `iter_n` ascent steps, and return the new
detail buffer `src - octave_base` together with the final input binding. -/
def runOctave (F : Tensor → Tensor) (B : Tensor → Tensor → Tensor)
    (cfg : DreamCfg) (rand : ℕ → ℤ × ℤ) (k : ℕ)
    (octave_base detail : Tensor) : Tensor × Tensor :=
  let detail1 := resizeForOctave k octave_base detail
  let src0 : Tensor :=
    ⟨3, octave_base.h, octave_base.w,
      fun c y x => octave_base.data c y x + detail1.data c y x⟩
  let srcN := ascentLoop F B cfg rand (k * cfg.iter_n) cfg.iter_n src0
  (subT srcN octave_base, srcN)

/-- The state (detail buffer, input binding) of `_deepdream` after
processing the first `k` octaves.  State `0` holds the zero-initialized
detail buffer shaped like the coarsest level, and whatever stale contents
`srcInit` the network's input binding had from before this call. -/
def engineState (F : Tensor → Tensor) (B : Tensor → Tensor → Tensor)
    (cfg : DreamCfg) (rand : ℕ → ℤ × ℤ) (img : Image) (srcInit : Tensor) :
    ℕ → Tensor × Tensor
  | 0 => (zerosLike ((octavesRev cfg img).getD 0 dummyT), srcInit)
  | k + 1 =>
      if k < (octavesRev cfg img).length then
        runOctave F B cfg rand k ((octavesRev cfg img).getD k dummyT)
          (engineState F B cfg rand img srcInit k).1
      else engineState F B cfg rand img srcInit k

/-- The image `_deepdream` returns: the deprocessed contents of the input
binding after all octaves have been processed. -/
def dreamOutput (F : Tensor → Tensor) (B : Tensor → Tensor → Tensor)
    (cfg : DreamCfg) (rand : ℕ → ℤ × ℤ) (img : Image) (srcInit : Tensor) :
    Image :=
  deprocess cfg.mean
    (engineState F B cfg rand img srcInit (octavesRev cfg img).length).2

/-- The per-frame loop of `deepdream_video`: each frame is run through
`_deepdream` and written back.  The network's input binding persists across
frames, so its final contents after one frame are threaded into the next
call as that call's stale initial binding. -/
def processFrames (F : Tensor → Tensor) (B : Tensor → Tensor → Tensor)
    (cfg : DreamCfg) (rand : ℕ → ℤ × ℤ) :
    Tensor → List Image → List Image
  | _, [] => []
  | srcState, img :: rest =>
      dreamOutput F B cfg rand img srcState ::
        processFrames F B cfg rand
          (engineState F B cfg rand img srcState
            (octavesRev cfg img).length).2 rest

/-- The characters of the regex character class in
`re.sub('[\\/:"*?<>|]+', "_", end)`. -/
def specialChars : List Char := ['\\', '/', ':', '"', '*', '?', '<', '>', '|']

/-- Whether a character belongs to the sanitized class. -/
def isSpecial (ch : Char) : Bool := specialChars.contains ch

/-- Worker for the regex substitution: the flag records whether the
previous character was part of a special run, so that a whole run
contributes a single underscore. -/
def sanitizeAux : Bool → List Char → List Char
  | _, [] => []
  | prevSpec, ch :: rest =>
      if isSpecial ch then
        (if prevSpec then [] else ['_']) ++ sanitizeAux true rest
      else ch :: sanitizeAux false rest

/-- `re.sub('[\\/:"*?<>|]+', "_", s)`: every maximal run of one or more
special characters is replaced by a single underscore. -/
def sanitizeLayer (s : String) : String := String.mk (sanitizeAux false s.data)

/-- Sanitization as the claim words it: each special character is replaced
by an underscore, one for one.  Stated from the specification for
comparison with `sanitizeLayer`, which embeds the source's regex. -/
def sanitizeSpec (s : String) : String :=
  String.mk (s.data.map (fun ch => if isSpecial ch then '_' else ch))

/-- Python's `"{:03d}".format n`: the decimal digits of `n`, left-padded
with zeros to at least three characters. -/
def pad3 (n : ℕ) : String :=
  let s := Nat.repr n
  String.mk (List.replicate (3 - s.length) '0' ++ s.data)

/-- Last index at which `ch` occurs, scanning from offset `i`. -/
def lastIdxAux (ch : Char) : List Char → ℕ → Option ℕ
  | [], _ => none
  | c :: rest, i =>
      let r := lastIdxAux ch rest (i + 1)
      if r.isSome then r else if c = ch then some i else none

/-- Models `os.path.splitext(p)[0]` from the Python standard library
(external to the repository): drop the extension starting at the last dot
of the final path component, unless that component consists only of
leading dots up to it. -/
def splitextStem (p : String) : String :=
  let cs := p.data
  match lastIdxAux '.' cs 0 with
  | none => p
  | some d =>
      let fi := match lastIdxAux '/' cs 0 with
                | none => 0
                | some si => si + 1
      if fi ≤ d then
        if ((cs.drop fi).take (d - fi)).any (fun c => c != '.') then
          String.mk (cs.take d)
        else p
      else p

/-- The name under which iteration `i` of the zoom dream loop persists its
result: `"{}_{}_{:03d}.jpg".format(splitext(img_path)[0], re.sub(...), i)`. -/
def dreamFileName (stem layer : String) (i : ℕ) : String :=
  stem ++ "_" ++ sanitizeLayer layer ++ "_" ++ pad3 i ++ ".jpg"

/-- The tuple `_select_network` returns for a supported selector. -/
structure NetSel where
  netFn : String
  paramFn : String
  channelSwap : ℕ × ℕ × ℕ
  caffeMean : ℚ × ℚ × ℚ

/-- Externally observable events of a `deepdream` run. -/
inductive Ev
  | write (msg : String)
  | acquire (netFn paramFn : String)
  | save (name : String)
deriving DecidableEq

/-- `_select_network`: a supported name yields its file/constant tuple; an
unknown name writes an error line and falls off the end, returning `None`. -/
def selectNetworkEv (netname : String) : Option NetSel × List Ev :=
  if netname = "bvlc_googlenet" then
    (some ⟨"deploy.prototxt", "bvlc_googlenet.caffemodel", (2, 1, 0),
      (104, 116, 122)⟩, [])
  else if netname = "googlenet_place205" then
    (some ⟨"deploy_places205.protxt",
      "googlelet_places205_train_iter_2400000.caffemodel", (2, 1, 0),
      (104, 116, 122)⟩, [])
  else
    (none, [Ev.write ("Error: network " ++ netname ++ " not implemented")])

/-- Observable outcome of a `deepdream` call: final result, event trace,
files persisted by the loop, the recorded `img_pool`, and the frame list
the gif assembly would consume (empty when gif production is off). -/
structure RunOut where
  outcome : Except String Unit
  events : List Ev
  saved : List String
  imgPool : List String
  gifFrames : List String

/-- The file-level behaviour of the `deepdream` entry point.  With an
unknown selector, `_select_network` returns `None` and the caller's tuple
unpacking raises before the `Classifier` is constructed: no resource is
acquired, nothing is dreamed or saved.  Otherwise `img_pool` starts as
`[img_path]`, each of the `irange` loop iterations saves one deterministic
file name (appending it to the pool when `gif` is set), and the gif branch
assembles the pool, reversed when `reverse` is set. -/
def deepdreamRun (netname img_path layer : String) (irange : ℕ)
    (gif rev : Bool) : RunOut :=
  let stem := splitextStem img_path
  match selectNetworkEv netname with
  | (none, ev) =>
      ⟨Except.error "TypeError: cannot unpack non-iterable NoneType object",
        ev, [], [], []⟩
  | (some sel, ev) =>
      let saved := (List.range irange).map (dreamFileName stem layer)
      let pool := img_path :: (if gif then saved else [])
      ⟨Except.ok (), ev ++ [Ev.acquire sel.netFn sel.paramFn] ++
          saved.map Ev.save,
        saved, pool, if gif then (if rev then pool.reverse else pool) else []⟩

lemma wrapIdx_cancel (x : ℕ) (o : ℤ) (n : ℕ) (hx : x < n) :
    wrapIdx ((wrapIdx ((x : ℤ) + o) n : ℤ) - o) n = x := by
  have hn : (n : ℤ) ≠ 0 := by
    have hpos : 0 < n := lt_of_le_of_lt (Nat.zero_le x) hx
    exact_mod_cast hpos.ne'
  unfold wrapIdx
  rw [Int.toNat_of_nonneg (Int.emod_nonneg _ hn)]
  have h1 : (((x : ℤ) + o) % n - o) % n = ((x : ℤ) + o - o) % n := by
    rw [Int.sub_emod, Int.emod_emod_of_dvd _ dvd_rfl, ← Int.sub_emod]
  rw [h1, add_sub_cancel_right,
    Int.emod_eq_of_lt (by positivity) (by exact_mod_cast hx)]
  simp

/-- Claim C1: in one gradient ascent step, the seed handed to the backward
pass is the forward activation of the target layer itself, and the input
tensor is updated by exactly `input += step_size / mean(abs(g)) * g` for
the backward-computed gradient `g`, with no epsilon guard: the value at a
valid position `(c, y, x)` after the un-jitter shift is the original value
plus the normalized gradient read at the jittered position, for every
oracle, step size and image. -/
theorem C1_ascent_update (F : Tensor → Tensor) (B : Tensor → Tensor → Tensor)
    (ss : ℚ) (bias : ℕ → ℚ) (ox oy : ℤ) (src : Tensor) (c y x : ℕ)
    (hy : y < src.h) (hx : x < src.w) :
    (make_step F B ss false bias (ox, oy) src).data c y x =
      src.data c y x +
        ss / meanAbs (B (rollY (rollX src ox) oy) (F (rollY (rollX src ox) oy))) *
          (B (rollY (rollX src ox) oy) (F (rollY (rollX src ox) oy))).data c
            (wrapIdx ((y : ℤ) + oy) src.h) (wrapIdx ((x : ℤ) + ox) src.w) := by
  simp only [make_step, Bool.false_eq_true, if_false, rollX, rollY,
    sub_neg_eq_add]
  rw [wrapIdx_cancel y oy src.h hy, wrapIdx_cancel x ox src.w hx]

/-- Witness for C1 at a concrete input: a 1x1x1 tensor of value 3, the
identity forward pass, a backward pass returning the (shifted) input
itself, step size 6 and zero offsets. -/
theorem C1_ascent_update_witness :
    ((0 : ℕ) < (Tensor.mk 1 1 1 fun _ _ _ => 3).h ∧
      (0 : ℕ) < (Tensor.mk 1 1 1 fun _ _ _ => 3).w) ∧
    (make_step (fun t => t) (fun t _ => t) 6 false (fun _ => 0) (0, 0)
        (Tensor.mk 1 1 1 fun _ _ _ => 3)).data 0 0 0 =
      (Tensor.mk 1 1 1 fun _ _ _ => 3).data 0 0 0 +
        6 / meanAbs ((fun (t : Tensor) (_ : Tensor) => t)
            (rollY (rollX (Tensor.mk 1 1 1 fun _ _ _ => 3) 0) 0)
            ((fun (t : Tensor) => t)
              (rollY (rollX (Tensor.mk 1 1 1 fun _ _ _ => 3) 0) 0))) *
          ((fun (t : Tensor) (_ : Tensor) => t)
            (rollY (rollX (Tensor.mk 1 1 1 fun _ _ _ => 3) 0) 0)
            ((fun (t : Tensor) => t)
              (rollY (rollX (Tensor.mk 1 1 1 fun _ _ _ => 3) 0) 0))).data 0
            (wrapIdx ((0 : ℤ) + 0) (Tensor.mk 1 1 1 fun _ _ _ => 3).h)
            (wrapIdx ((0 : ℤ) + 0) (Tensor.mk 1 1 1 fun _ _ _ => 3).w) :=
  ⟨⟨by decide, by decide⟩,
    C1_ascent_update (fun t => t) (fun t _ => t) 6 (fun _ => 0) 0 0
      (Tensor.mk 1 1 1 fun _ _ _ => 3) 0 0 0 (by decide) (by decide)⟩

/-- Claim C4: with clipping enabled, every element of the tensor produced
by a gradient ascent step lies in `[-bias c, 255 - bias c]` for its
channel's mean component, whatever the oracle, offsets and input. -/
theorem C4_clip_bound (F : Tensor → Tensor) (B : Tensor → Tensor → Tensor)
    (ss : ℚ) (bias : ℕ → ℚ) (off : ℤ × ℤ) (src : Tensor) (c y x : ℕ) :
    -(bias c) ≤ (make_step F B ss true bias off src).data c y x ∧
      (make_step F B ss true bias off src).data c y x ≤ 255 - bias c := by
  simp only [make_step, if_true]
  constructor
  · exact le_min (by linarith) (le_max_left _ _)
  · exact min_le_left _ _

/-- Claim C5: the circular jitter shift by `(ox, oy)` followed by the shift
by `(-ox, -oy)` reproduces the tensor exactly on all valid positions, for
any offsets in the configured jitter range, independent of any gradient
computation. -/
theorem C5_jitter_roundtrip (t : Tensor) (jit : ℕ) (ox oy : ℤ)
    (hox : -(jit : ℤ) ≤ ox ∧ ox ≤ jit) (hoy : -(jit : ℤ) ≤ oy ∧ oy ≤ jit) :
    Tensor.EqOn (rollY (rollX (rollY (rollX t ox) oy) (-ox)) (-oy)) t := by
  refine ⟨rfl, rfl, rfl, ?_⟩
  intro c _ y hy x hx
  simp only [rollX, rollY, sub_neg_eq_add]
  rw [wrapIdx_cancel y oy t.h hy, wrapIdx_cancel x ox t.w hx]

/-- Witness for C5: offsets `(2, -1)` in the jitter range for `jit = 3`, on
a concrete 1x2x2 tensor. -/
theorem C5_jitter_roundtrip_witness :
    ((-(3 : ℤ) ≤ 2 ∧ (2 : ℤ) ≤ 3) ∧ (-(3 : ℤ) ≤ -1 ∧ (-1 : ℤ) ≤ 3)) ∧
    Tensor.EqOn
      (rollY (rollX (rollY (rollX (Tensor.mk 1 2 2 fun c y x => c + 2 * y + 4 * x) 2) (-1)) (-2)) (1))
      (Tensor.mk 1 2 2 fun c y x => c + 2 * y + 4 * x) :=
  ⟨⟨⟨by decide, by decide⟩, ⟨by decide, by decide⟩⟩, by
    have h := C5_jitter_roundtrip (Tensor.mk 1 2 2 fun c y x => c + 2 * y + 4 * x)
      3 2 (-1) ⟨by decide, by decide⟩ ⟨by decide, by decide⟩
    simpa using h⟩

/-- Claim C6: deprocessing the preprocessed image reproduces the image
exactly on every valid pixel and channel: the axis permutation, channel
reversal and mean subtraction are inverted exactly. -/
theorem C6_codec_roundtrip (mean : ℕ → ℚ) (img : Image) :
    Image.EqOn (deprocess mean (preprocess mean img)) img := by
  refine ⟨rfl, rfl, ?_⟩
  intro y _ x _ ch hch
  simp only [preprocess, deprocess]
  have h2 : 2 - (2 - ch) = ch := by omega
  rw [h2]
  ring

lemma buildOctaves_length (t : Tensor) (f : ℚ) (k : ℕ) :
    (buildOctaves t f k).length = k + 1 := by
  induction k generalizing t with
  | zero => rfl
  | succ k ih => simp [buildOctaves, ih]

lemma buildOctaves_getD_zero (t : Tensor) (f : ℚ) (k : ℕ) (d : Tensor) :
    (buildOctaves t f k).getD 0 d = t := by
  cases k <;> rfl

lemma buildOctaves_getD_succ (t : Tensor) (f : ℚ) (k i : ℕ) (d : Tensor)
    (hi : i < k) :
    (buildOctaves t f k).getD (i + 1) d =
      zoomTensor ((buildOctaves t f k).getD i d) f f := by
  induction k generalizing t i with
  | zero => omega
  | succ k ih =>
    rw [show buildOctaves t f (k + 1) = t :: buildOctaves (zoomTensor t f f) f k
      from rfl]
    cases i with
    | zero =>
      rw [List.getD_cons_succ, List.getD_cons_zero, buildOctaves_getD_zero]
    | succ j =>
      rw [List.getD_cons_succ, List.getD_cons_succ]
      exact ih _ _ (by omega)

lemma roundHalfEven_nonneg (q : ℚ) (hq : 0 ≤ q) : 0 ≤ roundHalfEven q := by
  simp only [roundHalfEven]
  have hf : 0 ≤ ⌊q⌋ := Int.floor_nonneg.mpr hq
  split_ifs <;> omega

lemma abs_roundHalfEven_sub (q : ℚ) : |(roundHalfEven q : ℚ) - q| ≤ 1 / 2 := by
  simp only [roundHalfEven]
  have h0 : (⌊q⌋ : ℚ) ≤ q := Int.floor_le q
  have h1 : q - ⌊q⌋ < 1 := by
    have := Int.lt_floor_add_one q
    linarith
  split_ifs with hc1 hc2 hc3 <;> rw [abs_le] <;> push_cast <;>
    constructor <;> linarith

lemma roundHalfEven_natCast (n : ℕ) : roundHalfEven (n : ℚ) = n := by
  simp [roundHalfEven, Int.floor_natCast]

lemma zoomShape_eq (n : ℕ) (f : ℚ) (m : ℕ) (h1 : (m : ℚ) ≤ (n : ℚ) * f)
    (h2 : (n : ℚ) * f < m + 1) (h3 : (n : ℚ) * f - m < 1 / 2) :
    zoomShape n f = m := by
  have hfl : ⌊(n : ℚ) * f⌋ = (m : ℤ) :=
    Int.floor_eq_iff.mpr ⟨by exact_mod_cast h1, by push_cast; exact h2⟩
  unfold zoomShape roundHalfEven
  rw [hfl, if_pos (by push_cast; exact h3)]
  exact Int.toNat_natCast m

lemma zoomShape_close (n : ℕ) (f : ℚ) (hf : 0 ≤ f) :
    |((zoomShape n f : ℕ) : ℚ) - n * f| ≤ 1 / 2 := by
  unfold zoomShape
  have hq : 0 ≤ (n : ℚ) * f := by positivity
  have h2 : ((roundHalfEven ((n : ℚ) * f)).toNat : ℚ) =
      ((roundHalfEven ((n : ℚ) * f) : ℤ) : ℚ) := by
    exact_mod_cast Int.toNat_of_nonneg (roundHalfEven_nonneg _ hq)
  rw [h2]
  exact abs_roundHalfEven_sub _

/-- Claim C2 (amended): for `octaveCount = N >= 1` and `octaveScale = s > 1`
the pyramid has exactly `N` levels, level 0 is the oracle-space original,
each subsequent level is the order-1 zoom of the previous one by `1/s` on
both spatial axes, and each level's dimensions are within half a pixel of
the previous level's dimensions divided by `s`.  (The per-level dimensions
are iterated roundings, which can drift more than one pixel away from
`(H / s^k, W / s^k)`; see the counterexample.) -/
theorem C2_pyramid_structure (cfg : DreamCfg) (img : Image)
    (hN : 1 ≤ cfg.octave_n) (hs : 1 < cfg.octave_scale) :
    (octaves cfg img).length = cfg.octave_n ∧
    (octaves cfg img).getD 0 dummyT = preprocess cfg.mean img ∧
    ∀ k, k + 1 < cfg.octave_n →
      (octaves cfg img).getD (k + 1) dummyT =
        zoomTensor ((octaves cfg img).getD k dummyT)
          (1 / cfg.octave_scale) (1 / cfg.octave_scale) ∧
      |(((octaves cfg img).getD (k + 1) dummyT).h : ℚ) -
          ((octaves cfg img).getD k dummyT).h / cfg.octave_scale| ≤ 1 / 2 ∧
      |(((octaves cfg img).getD (k + 1) dummyT).w : ℚ) -
          ((octaves cfg img).getD k dummyT).w / cfg.octave_scale| ≤ 1 / 2 := by
  have hs0 : (0 : ℚ) < cfg.octave_scale := lt_trans one_pos hs
  have hf : 0 ≤ 1 / cfg.octave_scale := by positivity
  refine ⟨?_, buildOctaves_getD_zero _ _ _ _, ?_⟩
  · unfold octaves
    rw [buildOctaves_length]
    omega
  · intro k hk
    have hk' : k < cfg.octave_n - 1 := by omega
    have hsucc : (octaves cfg img).getD (k + 1) dummyT =
        zoomTensor ((octaves cfg img).getD k dummyT)
          (1 / cfg.octave_scale) (1 / cfg.octave_scale) :=
      buildOctaves_getD_succ (preprocess cfg.mean img)
        (1 / cfg.octave_scale) (cfg.octave_n - 1) k dummyT hk'
    refine ⟨hsucc, ?_, ?_⟩
    · have hcl := zoomShape_close ((octaves cfg img).getD k dummyT).h
        (1 / cfg.octave_scale) hf
      rw [← div_eq_mul_one_div] at hcl
      rw [hsucc]
      exact hcl
    · have hcl := zoomShape_close ((octaves cfg img).getD k dummyT).w
        (1 / cfg.octave_scale) hf
      rw [← div_eq_mul_one_div] at hcl
      rw [hsucc]
      exact hcl

/-- Configuration of the C2 counterexample: six octaves at scale 1.01. -/
def cexCfg : DreamCfg := ⟨0, 6, 101 / 100, 0, false, fun _ => 0⟩

/-- A 1000 x 1000 starting image for the C2 counterexample. -/
def cexImg : Image := ⟨1000, 1000, fun _ _ _ => 0⟩

/-- Counterexample to claim C2 as stated: with `H = 1000`, `s = 1.01` and
`N = 6`, the coarsest level (index 5 from finest) has height 950, while
`H / s^5` is about 951.47 — more than one pixel away.  Iterated per-level
rounding drifts beyond the claimed one-pixel envelope. -/
theorem C2_counterexample :
    ((octaves cexCfg cexImg).getD 5 dummyT).h = 950 ∧
    ¬ (|(((octaves cexCfg cexImg).getD 5 dummyT).h : ℚ) -
        (1000 : ℚ) / cexCfg.octave_scale ^ 5| ≤ 1) := by
  have hf : (1 : ℚ) / cexCfg.octave_scale = 100 / 101 := by norm_num [cexCfg]
  have step : ∀ k, k < 5 →
      ((octaves cexCfg cexImg).getD (k + 1) dummyT).h =
        zoomShape (((octaves cexCfg cexImg).getD k dummyT).h) (100 / 101) := by
    intro k hk
    have h : (octaves cexCfg cexImg).getD (k + 1) dummyT =
        zoomTensor ((octaves cexCfg cexImg).getD k dummyT)
          (1 / cexCfg.octave_scale) (1 / cexCfg.octave_scale) :=
      buildOctaves_getD_succ (preprocess cexCfg.mean cexImg)
        (1 / cexCfg.octave_scale) 5 k dummyT hk
    rw [h, hf]
    rfl
  have h0 : ((octaves cexCfg cexImg).getD 0 dummyT).h = 1000 := rfl
  have s1 : zoomShape 1000 (100 / 101 : ℚ) = 990 :=
    zoomShape_eq _ _ _ (by norm_num) (by norm_num) (by norm_num)
  have s2 : zoomShape 990 (100 / 101 : ℚ) = 980 :=
    zoomShape_eq _ _ _ (by norm_num) (by norm_num) (by norm_num)
  have s3 : zoomShape 980 (100 / 101 : ℚ) = 970 :=
    zoomShape_eq _ _ _ (by norm_num) (by norm_num) (by norm_num)
  have s4 : zoomShape 970 (100 / 101 : ℚ) = 960 :=
    zoomShape_eq _ _ _ (by norm_num) (by norm_num) (by norm_num)
  have s5 : zoomShape 960 (100 / 101 : ℚ) = 950 :=
    zoomShape_eq _ _ _ (by norm_num) (by norm_num) (by norm_num)
  have h5 : ((octaves cexCfg cexImg).getD 5 dummyT).h = 950 := by
    rw [show (5 : ℕ) = 4 + 1 from rfl, step 4 (by omega),
      show (4 : ℕ) = 3 + 1 from rfl, step 3 (by omega),
      show (3 : ℕ) = 2 + 1 from rfl, step 2 (by omega),
      show (2 : ℕ) = 1 + 1 from rfl, step 1 (by omega),
      show (1 : ℕ) = 0 + 1 from rfl, step 0 (by omega),
      h0, s1, s2, s3, s4, s5]
  refine ⟨h5, ?_⟩
  rw [h5]
  intro hle
  rw [abs_le] at hle
  obtain ⟨hl, -⟩ := hle
  norm_num [cexCfg] at hl

/-- Configuration of the C2 witness: two octaves at scale 2. -/
def wCfg : DreamCfg := ⟨0, 2, 2, 0, false, fun _ => 0⟩

/-- A 2 x 2 starting image for the C2 witness. -/
def wImg : Image := ⟨2, 2, fun y x ch => y + 10 * x + 100 * ch⟩

/-- Witness for C2 at a concrete run: two octaves at scale 2 on a 2 x 2
image. -/
theorem C2_pyramid_structure_witness :
    (1 ≤ wCfg.octave_n ∧ 1 < wCfg.octave_scale) ∧
    ((octaves wCfg wImg).length = wCfg.octave_n ∧
    (octaves wCfg wImg).getD 0 dummyT = preprocess wCfg.mean wImg ∧
    ∀ k, k + 1 < wCfg.octave_n →
      (octaves wCfg wImg).getD (k + 1) dummyT =
        zoomTensor ((octaves wCfg wImg).getD k dummyT)
          (1 / wCfg.octave_scale) (1 / wCfg.octave_scale) ∧
      |(((octaves wCfg wImg).getD (k + 1) dummyT).h : ℚ) -
          ((octaves wCfg wImg).getD k dummyT).h / wCfg.octave_scale| ≤ 1 / 2 ∧
      |(((octaves wCfg wImg).getD (k + 1) dummyT).w : ℚ) -
          ((octaves wCfg wImg).getD k dummyT).w / wCfg.octave_scale| ≤ 1 / 2) :=
  ⟨⟨by norm_num [wCfg], by norm_num [wCfg]⟩,
    C2_pyramid_structure wCfg wImg (by norm_num [wCfg]) (by norm_num [wCfg])⟩

lemma make_step_dims (F : Tensor → Tensor) (B : Tensor → Tensor → Tensor)
    (ss : ℚ) (clip : Bool) (bias : ℕ → ℚ) (off : ℤ × ℤ) (src : Tensor) :
    (make_step F B ss clip bias off src).c = src.c ∧
    (make_step F B ss clip bias off src).h = src.h ∧
    (make_step F B ss clip bias off src).w = src.w := by
  cases clip <;> exact ⟨rfl, rfl, rfl⟩

lemma ascentLoop_dims (F : Tensor → Tensor) (B : Tensor → Tensor → Tensor)
    (cfg : DreamCfg) (rand : ℕ → ℤ × ℤ) (base0 n : ℕ) (src : Tensor) :
    (ascentLoop F B cfg rand base0 n src).c = src.c ∧
    (ascentLoop F B cfg rand base0 n src).h = src.h ∧
    (ascentLoop F B cfg rand base0 n src).w = src.w := by
  induction n with
  | zero => exact ⟨rfl, rfl, rfl⟩
  | succ n ih =>
    have hm := make_step_dims F B cfg.step_size cfg.clip cfg.mean
      (rand (base0 + n)) (ascentLoop F B cfg rand base0 n src)
    exact ⟨hm.1.trans ih.1, hm.2.1.trans ih.2.1, hm.2.2.trans ih.2.2⟩

lemma runOctave_snd_dims (F : Tensor → Tensor) (B : Tensor → Tensor → Tensor)
    (cfg : DreamCfg) (rand : ℕ → ℤ × ℤ) (k : ℕ) (base detail : Tensor) :
    (runOctave F B cfg rand k base detail).2.c = 3 ∧
    (runOctave F B cfg rand k base detail).2.h = base.h ∧
    (runOctave F B cfg rand k base detail).2.w = base.w :=
  ascentLoop_dims F B cfg rand (k * cfg.iter_n) cfg.iter_n _

lemma runOctave_fst_dims (F : Tensor → Tensor) (B : Tensor → Tensor → Tensor)
    (cfg : DreamCfg) (rand : ℕ → ℤ × ℤ) (k : ℕ) (base detail : Tensor) :
    (runOctave F B cfg rand k base detail).1.c = 3 ∧
    (runOctave F B cfg rand k base detail).1.h = base.h ∧
    (runOctave F B cfg rand k base detail).1.w = base.w :=
  runOctave_snd_dims F B cfg rand k base detail

lemma octaves_length (cfg : DreamCfg) (img : Image) (hN : 1 ≤ cfg.octave_n) :
    (octaves cfg img).length = cfg.octave_n := by
  unfold octaves
  rw [buildOctaves_length]
  omega

lemma octaves_length_pos (cfg : DreamCfg) (img : Image) :
    0 < (octaves cfg img).length := by
  unfold octaves
  rw [buildOctaves_length]
  omega

lemma octavesRev_length (cfg : DreamCfg) (img : Image) :
    (octavesRev cfg img).length = (octaves cfg img).length :=
  List.length_reverse _

lemma engineState_succ_of_lt (F : Tensor → Tensor) (B : Tensor → Tensor → Tensor)
    (cfg : DreamCfg) (rand : ℕ → ℤ × ℤ) (img : Image) (s0 : Tensor) (k : ℕ)
    (hk : k < (octavesRev cfg img).length) :
    engineState F B cfg rand img s0 (k + 1) =
      runOctave F B cfg rand k ((octavesRev cfg img).getD k dummyT)
        (engineState F B cfg rand img s0 k).1 := by
  simp [engineState, hk]

lemma detail_dims (F : Tensor → Tensor) (B : Tensor → Tensor → Tensor)
    (cfg : DreamCfg) (rand : ℕ → ℤ × ℤ) (img : Image) (s0 : Tensor) (k : ℕ)
    (hk : k < (octavesRev cfg img).length) :
    (engineState F B cfg rand img s0 (k + 1)).1.h =
      ((octavesRev cfg img).getD k dummyT).h ∧
    (engineState F B cfg rand img s0 (k + 1)).1.w =
      ((octavesRev cfg img).getD k dummyT).w := by
  rw [engineState_succ_of_lt F B cfg rand img s0 k hk]
  have h := runOctave_fst_dims F B cfg rand k
    ((octavesRev cfg img).getD k dummyT)
    (engineState F B cfg rand img s0 k).1
  exact ⟨h.2.1, h.2.2⟩

lemma zoomShape_self (d m : ℕ) (hd : d ≠ 0) :
    zoomShape d ((m : ℚ) / (d : ℚ)) = m := by
  unfold zoomShape
  have h : (d : ℚ) * ((m : ℚ) / (d : ℚ)) = m := by
    field_simp
  rw [h, roundHalfEven_natCast, Int.toNat_natCast]

lemma octavesRev_getD_pos (cfg : DreamCfg) (img : Image)
    (hpos : ∀ t ∈ octaves cfg img, 0 < t.h ∧ 0 < t.w) (k : ℕ)
    (hk : k < (octavesRev cfg img).length) :
    0 < ((octavesRev cfg img).getD k dummyT).h ∧
    0 < ((octavesRev cfg img).getD k dummyT).w := by
  have hmem : (octavesRev cfg img).getD k dummyT ∈ octavesRev cfg img := by
    rw [List.getD_eq_getElem (octavesRev cfg img) dummyT hk]
    exact List.getElem_mem hk
  exact hpos _ (List.mem_reverse.mp hmem)

/-- Claim C3: in a multi-octave run (all pyramid levels spatially
non-degenerate), the detail buffer starts as zeros shaped like the coarsest
level; the buffer actually added to each level's base — resampled for every
level after the first processed — has exactly that level's spatial shape;
and after each level's iterations the buffer is replaced by the input
binding's data minus that level's base data. -/
theorem C3_detail_invariant (F : Tensor → Tensor) (B : Tensor → Tensor → Tensor)
    (cfg : DreamCfg) (rand : ℕ → ℤ × ℤ) (img : Image) (s0 : Tensor)
    (hN : 2 ≤ cfg.octave_n)
    (hpos : ∀ t ∈ octaves cfg img, 0 < t.h ∧ 0 < t.w) :
    (engineState F B cfg rand img s0 0).1 =
      zerosLike ((octavesRev cfg img).getD 0 dummyT) ∧
    (∀ k < cfg.octave_n,
      (resizeForOctave k ((octavesRev cfg img).getD k dummyT)
          (engineState F B cfg rand img s0 k).1).h =
        ((octavesRev cfg img).getD k dummyT).h ∧
      (resizeForOctave k ((octavesRev cfg img).getD k dummyT)
          (engineState F B cfg rand img s0 k).1).w =
        ((octavesRev cfg img).getD k dummyT).w) ∧
    (∀ k < cfg.octave_n,
      (engineState F B cfg rand img s0 (k + 1)).1 =
        subT (engineState F B cfg rand img s0 (k + 1)).2
          ((octavesRev cfg img).getD k dummyT)) := by
  have hlen : (octavesRev cfg img).length = cfg.octave_n := by
    rw [octavesRev_length, octaves_length cfg img (by omega)]
  refine ⟨rfl, ?_, ?_⟩
  · intro k hk
    cases k with
    | zero =>
      exact ⟨rfl, rfl⟩
    | succ j =>
      have hj : j < (octavesRev cfg img).length := by omega
      have hd := detail_dims F B cfg rand img s0 j hj
      have hjpos := octavesRev_getD_pos cfg img hpos j hj
      constructor
      · show (zoomTensor (engineState F B cfg rand img s0 (j + 1)).1 _ _).h = _
        show zoomShape (engineState F B cfg rand img s0 (j + 1)).1.h _ = _
        rw [hd.1]
        exact zoomShape_self _ _ (Nat.pos_iff_ne_zero.mp hjpos.1)
      · show (zoomTensor (engineState F B cfg rand img s0 (j + 1)).1 _ _).w = _
        show zoomShape (engineState F B cfg rand img s0 (j + 1)).1.w _ = _
        rw [hd.2]
        exact zoomShape_self _ _ (Nat.pos_iff_ne_zero.mp hjpos.2)
  · intro k hk
    rw [engineState_succ_of_lt F B cfg rand img s0 k (by omega)]
    rfl

lemma octaves_wCfg_wImg_pos : ∀ t ∈ octaves wCfg wImg, 0 < t.h ∧ 0 < t.w := by
  have hz : zoomShape 2 (1 / wCfg.octave_scale) = 1 := by
    have : (1 : ℚ) / wCfg.octave_scale = 1 / 2 := by norm_num [wCfg]
    rw [this]
    exact zoomShape_eq _ _ _ (by norm_num) (by norm_num) (by norm_num)
  intro t ht
  rw [show octaves wCfg wImg = [preprocess wCfg.mean wImg,
      zoomTensor (preprocess wCfg.mean wImg) (1 / wCfg.octave_scale)
        (1 / wCfg.octave_scale)] from rfl] at ht
  rcases List.mem_pair.mp ht with h | h <;> subst h
  · exact ⟨by norm_num [preprocess, wImg], by norm_num [preprocess, wImg]⟩
  · constructor
    · show 0 < zoomShape (preprocess wCfg.mean wImg).h (1 / wCfg.octave_scale)
      rw [show (preprocess wCfg.mean wImg).h = 2 from rfl, hz]
      omega
    · show 0 < zoomShape (preprocess wCfg.mean wImg).w (1 / wCfg.octave_scale)
      rw [show (preprocess wCfg.mean wImg).w = 2 from rfl, hz]
      omega

/-- Witness for C3 at a concrete run: the identity oracle on a 2 x 2 image
with two octaves at scale 2 and zero iterations per octave. -/
theorem C3_detail_invariant_witness :
    (2 ≤ wCfg.octave_n ∧ ∀ t ∈ octaves wCfg wImg, 0 < t.h ∧ 0 < t.w) ∧
    ((engineState (fun t => t) (fun t _ => t) wCfg (fun _ => (0, 0)) wImg
        dummyT 0).1 =
      zerosLike ((octavesRev wCfg wImg).getD 0 dummyT) ∧
    (∀ k < wCfg.octave_n,
      (resizeForOctave k ((octavesRev wCfg wImg).getD k dummyT)
          (engineState (fun t => t) (fun t _ => t) wCfg (fun _ => (0, 0)) wImg
            dummyT k).1).h =
        ((octavesRev wCfg wImg).getD k dummyT).h ∧
      (resizeForOctave k ((octavesRev wCfg wImg).getD k dummyT)
          (engineState (fun t => t) (fun t _ => t) wCfg (fun _ => (0, 0)) wImg
            dummyT k).1).w =
        ((octavesRev wCfg wImg).getD k dummyT).w) ∧
    (∀ k < wCfg.octave_n,
      (engineState (fun t => t) (fun t _ => t) wCfg (fun _ => (0, 0)) wImg
          dummyT (k + 1)).1 =
        subT (engineState (fun t => t) (fun t _ => t) wCfg (fun _ => (0, 0))
            wImg dummyT (k + 1)).2
          ((octavesRev wCfg wImg).getD k dummyT))) :=
  ⟨⟨by norm_num [wCfg], octaves_wCfg_wImg_pos⟩,
    C3_detail_invariant (fun t => t) (fun t _ => t) wCfg (fun _ => (0, 0))
      wImg dummyT (by norm_num [wCfg]) octaves_wCfg_wImg_pos⟩

lemma engineState_srcInit_irrel (F : Tensor → Tensor)
    (B : Tensor → Tensor → Tensor) (cfg : DreamCfg) (rand : ℕ → ℤ × ℤ)
    (img : Image) (s1 s2 : Tensor) (k : ℕ) (hk : 1 ≤ k) :
    engineState F B cfg rand img s1 k = engineState F B cfg rand img s2 k := by
  induction k with
  | zero => omega
  | succ j ih =>
    cases Nat.eq_zero_or_pos j with
    | inl h0 =>
      subst h0
      have hlt : 0 < (octavesRev cfg img).length := by
        rw [octavesRev_length]
        exact octaves_length_pos cfg img
      rw [engineState_succ_of_lt F B cfg rand img s1 0 hlt,
        engineState_succ_of_lt F B cfg rand img s2 0 hlt]
      rfl
    | inr hpos =>
      by_cases hlt : j < (octavesRev cfg img).length
      · rw [engineState_succ_of_lt F B cfg rand img s1 j hlt,
          engineState_succ_of_lt F B cfg rand img s2 j hlt, ih hpos]
      · simp only [engineState, if_neg hlt]
        exact ih hpos

lemma dreamOutput_srcInit_irrel (F : Tensor → Tensor)
    (B : Tensor → Tensor → Tensor) (cfg : DreamCfg) (rand : ℕ → ℤ × ℤ)
    (img : Image) (s1 s2 : Tensor) :
    dreamOutput F B cfg rand img s1 = dreamOutput F B cfg rand img s2 := by
  unfold dreamOutput
  rw [engineState_srcInit_irrel F B cfg rand img s1 s2 _ (by
    rw [octavesRev_length]
    exact octaves_length_pos cfg img)]

/-- Claim C8: in the frame sequence pipeline each frame is amplified by a
fresh engine call with no state carried between frames: although the
network's input binding persists from one frame to the next, the output
written for the frame at any position equals the output of a standalone
engine call on that frame's original content alone, independent of which
or how many frames were processed before it. -/
theorem C8_frames_independent (F : Tensor → Tensor)
    (B : Tensor → Tensor → Tensor) (cfg : DreamCfg) (rand : ℕ → ℤ × ℤ)
    (s0 : Tensor) (frames : List Image) (j : ℕ) (hj : j < frames.length) :
    (processFrames F B cfg rand s0 frames).getD j dummyImg =
      dreamOutput F B cfg rand (frames.getD j dummyImg) dummyT := by
  induction frames generalizing s0 j with
  | nil => simp at hj
  | cons a rest ih =>
    cases j with
    | zero =>
      simp only [processFrames, List.getD_cons_zero]
      exact dreamOutput_srcInit_irrel F B cfg rand a s0 dummyT
    | succ i =>
      simp only [processFrames, List.getD_cons_succ]
      exact ih _ _ (by simpa using hj)

/-- Witness for C8: a two-frame list; the second frame's output equals the
standalone engine output on that frame. -/
theorem C8_frames_independent_witness :
    (1 < ([wImg, dummyImg] : List Image).length) ∧
    (processFrames (fun t => t) (fun t _ => t) wCfg (fun _ => (0, 0)) dummyT
        [wImg, dummyImg]).getD 1 dummyImg =
      dreamOutput (fun t => t) (fun t _ => t) wCfg (fun _ => (0, 0))
        (([wImg, dummyImg] : List Image).getD 1 dummyImg) dummyT :=
  ⟨by norm_num,
    C8_frames_independent (fun t => t) (fun t _ => t) wCfg (fun _ => (0, 0))
      dummyT [wImg, dummyImg] 1 (by norm_num)⟩

set_option maxRecDepth 10000 in
lemma repr_length_le_three : ∀ i < 1000, (Nat.repr i).length ≤ 3 := by decide

lemma pad3_length (i : ℕ) (hi : i < 1000) : (pad3 i).length = 3 := by
  have hle := repr_length_le_three i hi
  have hle2 : (Nat.repr i).data.length ≤ 3 := hle
  simp only [pad3, String.length, String.data, List.length_append,
    List.length_replicate]
  omega

lemma deepdreamRun_known (netname imgPath layer : String) (R : ℕ)
    (g r : Bool) (sel : NetSel)
    (hsel : selectNetworkEv netname = (some sel, [])) :
    deepdreamRun netname imgPath layer R g r =
      ⟨Except.ok (),
        Ev.acquire sel.netFn sel.paramFn ::
          ((List.range R).map
            (dreamFileName (splitextStem imgPath) layer)).map Ev.save,
        (List.range R).map (dreamFileName (splitextStem imgPath) layer),
        imgPath :: (if g then
          (List.range R).map (dreamFileName (splitextStem imgPath) layer)
          else []),
        if g then
          (if r then
            (imgPath :: (List.range R).map
              (dreamFileName (splitextStem imgPath) layer)).reverse
          else imgPath :: (List.range R).map
            (dreamFileName (splitextStem imgPath) layer))
        else []⟩ := by
  unfold deepdreamRun
  rw [hsel]
  cases g <;> cases r <;> simp

lemma selectNetworkEv_bvlc :
    selectNetworkEv "bvlc_googlenet" =
      (some ⟨"deploy.prototxt", "bvlc_googlenet.caffemodel", (2, 1, 0),
        (104, 116, 122)⟩, []) := by
  rw [selectNetworkEv, if_pos rfl]

lemma selectNetworkEv_places :
    selectNetworkEv "googlenet_place205" =
      (some ⟨"deploy_places205.protxt",
        "googlelet_places205_train_iter_2400000.caffemodel", (2, 1, 0),
        (104, 116, 122)⟩, []) := by
  rw [selectNetworkEv, if_neg (by decide), if_pos rfl]

/-- Counterexample to claim C7 as stated: the source's regex
`[\\/:"*?<>|]+` collapses a whole run of separator characters into a single
underscore, while the claim's character-wise sanitization would keep one
underscore per character.  For the layer name `a//b` the loop saves
`in_a_b_000.jpg`, not the claimed `in_a__b_000.jpg`. -/
theorem C7_counterexample :
    (deepdreamRun "bvlc_googlenet" "in.jpg" "a//b" 1 false false).saved =
      ["in_a_b_000.jpg"] ∧
    "in_a_b_000.jpg" ≠
      splitextStem "in.jpg" ++ "_" ++ sanitizeSpec "a//b" ++ "_" ++
        pad3 0 ++ ".jpg" := by
  constructor
  · decide
  · decide

/-- Claim C7 (amended): a zoom dream loop run with `repeatCount = R <= 1000`
persists exactly `R` images, the `i`-th named
`<stem>_<sanitizedLayer>_<i zero-padded to 3 digits>.jpg`, where
sanitization replaces each maximal run of one or more of the characters
`\ / : " * ? < > |` with a single underscore. -/
theorem C7_filenames (netname imgPath layer : String) (R : ℕ) (g r : Bool)
    (hnet : netname = "bvlc_googlenet" ∨ netname = "googlenet_place205")
    (hR : R ≤ 1000) :
    (deepdreamRun netname imgPath layer R g r).saved.length = R ∧
    ∀ i < R,
      (deepdreamRun netname imgPath layer R g r).saved.getD i "" =
        splitextStem imgPath ++ "_" ++ sanitizeLayer layer ++ "_" ++
          pad3 i ++ ".jpg" ∧
      (pad3 i).length = 3 := by
  have hrun : (deepdreamRun netname imgPath layer R g r).saved =
      (List.range R).map (dreamFileName (splitextStem imgPath) layer) := by
    rcases hnet with h | h <;> subst h
    · rw [deepdreamRun_known _ _ _ _ _ _ _ selectNetworkEv_bvlc]
    · rw [deepdreamRun_known _ _ _ _ _ _ _ selectNetworkEv_places]
  rw [hrun]
  refine ⟨by simp, ?_⟩
  intro i hi
  refine ⟨?_, pad3_length i (by omega)⟩
  rw [List.getD_eq_getElem?_getD, List.getElem?_map, List.getElem?_range hi]
  rfl

/-- Witness for C7: one iteration on the standard network with layer name
`inception_4c/output`. -/
theorem C7_filenames_witness :
    (("bvlc_googlenet" = "bvlc_googlenet" ∨
        "bvlc_googlenet" = "googlenet_place205") ∧ 1 ≤ 1000) ∧
    ((deepdreamRun "bvlc_googlenet" "in.jpg" "inception_4c/output" 1 false
        false).saved.length = 1 ∧
    ∀ i < 1,
      (deepdreamRun "bvlc_googlenet" "in.jpg" "inception_4c/output" 1 false
          false).saved.getD i "" =
        splitextStem "in.jpg" ++ "_" ++ sanitizeLayer "inception_4c/output" ++
          "_" ++ pad3 i ++ ".jpg" ∧
      (pad3 i).length = 3) :=
  ⟨⟨Or.inl rfl, by omega⟩,
    C7_filenames "bvlc_googlenet" "in.jpg" "inception_4c/output" 1 false
      false (Or.inl rfl) (by omega)⟩

/-- Claim C9: for every unknown network selector the run fails hard with a
reported error before any oracle resource is acquired: the outcome is the
unpacking error, the only event is the error line written by
`_select_network` (no classifier acquisition, no saves), and no image is
persisted or collected. -/
theorem C9_unknown_network (netname imgPath layer : String) (R : ℕ)
    (g r : Bool) (h1 : netname ≠ "bvlc_googlenet")
    (h2 : netname ≠ "googlenet_place205") :
    (deepdreamRun netname imgPath layer R g r).outcome =
      Except.error "TypeError: cannot unpack non-iterable NoneType object" ∧
    (deepdreamRun netname imgPath layer R g r).events =
      [Ev.write ("Error: network " ++ netname ++ " not implemented")] ∧
    (deepdreamRun netname imgPath layer R g r).saved = [] ∧
    (deepdreamRun netname imgPath layer R g r).gifFrames = [] := by
  have hsel : selectNetworkEv netname =
      (none, [Ev.write ("Error: network " ++ netname ++ " not implemented")]) := by
    rw [selectNetworkEv, if_neg h1, if_neg h2]
  unfold deepdreamRun
  rw [hsel]
  exact ⟨rfl, rfl, rfl, rfl⟩

/-- Witness for C9 at the unknown selector `resnet`. -/
theorem C9_unknown_network_witness :
    (("resnet" : String) ≠ "bvlc_googlenet" ∧
      ("resnet" : String) ≠ "googlenet_place205") ∧
    ((deepdreamRun "resnet" "in.jpg" "inception_4c/output" 3 true
        false).outcome =
      Except.error "TypeError: cannot unpack non-iterable NoneType object" ∧
    (deepdreamRun "resnet" "in.jpg" "inception_4c/output" 3 true
        false).events =
      [Ev.write ("Error: network " ++ "resnet" ++ " not implemented")] ∧
    (deepdreamRun "resnet" "in.jpg" "inception_4c/output" 3 true
        false).saved = [] ∧
    (deepdreamRun "resnet" "in.jpg" "inception_4c/output" 3 true
        false).gifFrames = []) :=
  ⟨⟨by decide, by decide⟩,
    C9_unknown_network "resnet" "in.jpg" "inception_4c/output" 3 true false
      (by decide) (by decide)⟩

/-- Claim C10: `img_pool` is unconditionally initialized with the original
input path before the loop, so with animated-sequence production enabled a
run with `repeatCount = R` records `R + 1` frames and assembles all of
them, the untouched original first — or last when reverse order is
selected; no configuration excludes the original. -/
theorem C10_gif_includes_original (netname imgPath layer : String) (R : ℕ)
    (r : Bool)
    (hnet : netname = "bvlc_googlenet" ∨ netname = "googlenet_place205") :
    (∀ g : Bool,
      (deepdreamRun netname imgPath layer R g r).imgPool.getD 0 "" = imgPath) ∧
    (deepdreamRun netname imgPath layer R true r).imgPool.length = R + 1 ∧
    (deepdreamRun netname imgPath layer R true r).gifFrames.length = R + 1 ∧
    (r = false →
      (deepdreamRun netname imgPath layer R true r).gifFrames.getD 0 "" =
        imgPath) ∧
    (r = true →
      (deepdreamRun netname imgPath layer R true r).gifFrames.getLast? =
        some imgPath) := by
  obtain ⟨sel, hsel⟩ : ∃ sel, selectNetworkEv netname = (some sel, []) := by
    rcases hnet with h | h <;> subst h
    · exact ⟨_, selectNetworkEv_bvlc⟩
    · exact ⟨_, selectNetworkEv_places⟩
  have hrw : ∀ g : Bool, deepdreamRun netname imgPath layer R g r =
      ⟨Except.ok (),
        Ev.acquire sel.netFn sel.paramFn ::
          ((List.range R).map
            (dreamFileName (splitextStem imgPath) layer)).map Ev.save,
        (List.range R).map (dreamFileName (splitextStem imgPath) layer),
        imgPath :: (if g then
          (List.range R).map (dreamFileName (splitextStem imgPath) layer)
          else []),
        if g then
          (if r then
            (imgPath :: (List.range R).map
              (dreamFileName (splitextStem imgPath) layer)).reverse
          else imgPath :: (List.range R).map
            (dreamFileName (splitextStem imgPath) layer))
        else []⟩ := by
    intro g
    exact deepdreamRun_known _ _ _ _ _ _ _ hsel
  refine ⟨fun g => ?_, ?_, ?_, fun hr => ?_, fun hr => ?_⟩
  · rw [hrw g]
    rfl
  · rw [hrw true]
    simp
  · rw [hrw true]
    cases r <;> simp
  · rw [hrw true]
    subst hr
    rfl
  · rw [hrw true]
    subst hr
    simp [List.getLast?_reverse]

/-- Witness for C10: two iterations on the standard network, forward frame
order. -/
theorem C10_gif_includes_original_witness :
    ("bvlc_googlenet" = "bvlc_googlenet" ∨
      "bvlc_googlenet" = "googlenet_place205") ∧
    ((∀ g : Bool,
      (deepdreamRun "bvlc_googlenet" "in.jpg" "inception_4c/output" 2 g
          false).imgPool.getD 0 "" = "in.jpg") ∧
    (deepdreamRun "bvlc_googlenet" "in.jpg" "inception_4c/output" 2 true
        false).imgPool.length = 2 + 1 ∧
    (deepdreamRun "bvlc_googlenet" "in.jpg" "inception_4c/output" 2 true
        false).gifFrames.length = 2 + 1 ∧
    (false = false →
      (deepdreamRun "bvlc_googlenet" "in.jpg" "inception_4c/output" 2 true
          false).gifFrames.getD 0 "" = "in.jpg") ∧
    (false = true →
      (deepdreamRun "bvlc_googlenet" "in.jpg" "inception_4c/output" 2 true
          false).gifFrames.getLast? = some "in.jpg")) :=
  ⟨Or.inl rfl,
    C10_gif_includes_original "bvlc_googlenet" "in.jpg" "inception_4c/output"
      2 false (Or.inl rfl)⟩

end DeepDreamer
